import Mathlib

/-!
Verification of the beat-to-chart derivation engine of a rhythm-game chart
generator.  The Python source (`utils/beat_detection.py`,
`utils/chart_generator.py`, `3_generate_chart.py`) is shallowly embedded:
floating-point numbers are modelled as rationals, Python dictionaries as
structures, missing dictionary keys as `Option` fields, and fallible code
(`max()` on an empty sequence raises `ValueError`) as `Except`.
-/

namespace DrumChart

/-- Python `round(x)` (banker's rounding, round-half-to-even) on a rational. -/
def pyRound (x : ℚ) : ℤ :=
  if x - ⌊x⌋ < 1/2 then ⌊x⌋
  else if 1/2 < x - ⌊x⌋ then ⌊x⌋ + 1
  else if ⌊x⌋ % 2 = 0 then ⌊x⌋ else ⌊x⌋ + 1

/-- Python `round(x, 3)`: round to millisecond (3 decimal digit) precision. -/
def round3 (x : ℚ) : ℚ := (pyRound (1000 * x) : ℚ) / 1000

/-- Python `round(x, 2)`: round to 2 decimal digits. -/
def round2 (x : ℚ) : ℚ := (pyRound (100 * x) : ℚ) / 100

/-- Python `int(x)` on a float: truncation toward zero. -/
def pyInt (x : ℚ) : ℤ := if 0 ≤ x then ⌊x⌋ else -⌊-x⌋

/-- Python truthiness of an optional string (`None` and `""` are falsy),
as used by `if note_type:` in `generate_chart`. -/
def pyTruthy : Option String → Bool
  | none => false
  | some s => s != ""

/-- Python `x or 1.0` on a float `x` (`0.0` is falsy), as used on the
per-band maxima in `normalize_energies`. -/
def pyOr1 (x : ℚ) : ℚ := if x = 0 then 1 else x

/-- Python `max(list)`: raises `ValueError` on an empty sequence. -/
def pyMax : List ℚ → Except String ℚ
  | [] => .error "ValueError: max() arg is an empty sequence"
  | x :: xs => .ok (xs.foldl max x)

/-- A raw drum event as produced by `analyze_drum_hits`
(`beat_detection.py`): a time plus the three raw band energies. -/
structure DrumEventRaw where
  time : ℚ
  kick_energy : ℚ
  snare_energy : ℚ
  hihat_energy : ℚ
deriving DecidableEq

/-- A drum event after `normalize_energies` added the three
`*_energy_norm` keys. -/
structure DrumEvent where
  time : ℚ
  kick_energy : ℚ
  snare_energy : ℚ
  hihat_energy : ℚ
  kick_energy_norm : ℚ
  snare_energy_norm : ℚ
  hihat_energy_norm : ℚ
deriving DecidableEq

/-- `normalize_energies` (`beat_detection.py` lines 60-84).  The per-band
maximum over the whole event list is computed with Python `max`, which
raises on an empty list; a zero maximum is replaced by `1.0` through
`max(...) or 1.0`. -/
def normalize_energies (drum_events : List DrumEventRaw) :
    Except String (List DrumEvent) := do
  let mk ← pyMax (drum_events.map (fun e => e.kick_energy))
  let ms ← pyMax (drum_events.map (fun e => e.snare_energy))
  let mh ← pyMax (drum_events.map (fun e => e.hihat_energy))
  let max_kick := pyOr1 mk
  let max_snare := pyOr1 ms
  let max_hihat := pyOr1 mh
  return drum_events.map (fun e =>
    { time := e.time
      kick_energy := e.kick_energy
      snare_energy := e.snare_energy
      hihat_energy := e.hihat_energy
      kick_energy_norm := e.kick_energy / max_kick
      snare_energy_norm := e.snare_energy / max_snare
      hihat_energy_norm := e.hihat_energy / max_hihat })

/-- `combine_beats_and_onsets` (`beat_detection.py` lines 115-143): keep
all onsets, add each beat that has no onset within `tolerance`, then round
to millisecond precision, deduplicate and sort ascending. -/
def combine_beats_and_onsets (beat_times onset_times : List ℚ)
    (tolerance : ℚ) : List ℚ :=
  let combined := onset_times ++
    beat_times.filter (fun b => !(onset_times.any (fun o => |b - o| < tolerance)))
  List.insertionSort (fun a b => a ≤ b) ((combined.map round3).dedup)

/-- An input event for `generate_chart`: the three `*_energy_norm`
dictionary keys may be absent (`event.get(key, 0)` in the source). -/
structure DrumEventIn where
  time : ℚ
  kick_energy_norm : Option ℚ
  snare_energy_norm : Option ℚ
  hihat_energy_norm : Option ℚ
deriving DecidableEq

/-- A game note: `{time, type, velocity}`. -/
structure Note where
  time : ℚ
  type : String
  velocity : ℚ
deriving DecidableEq

/-- Per-difficulty configuration (thresholds, minimum interval and the
optional `note_density` read with `.get('note_density', 1.0)`). -/
structure DifficultyConfig where
  kick_threshold : ℚ
  snare_threshold : ℚ
  hihat_threshold : ℚ
  min_interval : ℚ
  note_density : Option ℚ
deriving DecidableEq

/-- The category → hand-label mapping (`config['mapping']`). -/
structure Mapping where
  kick : String
  snare : String
  hihat : String
deriving DecidableEq

/-- Chart metadata as built by `generate_chart`. -/
structure ChartMetadata where
  generatedBy : String
  noteCount : ℕ
  leftCount : ℕ
  rightCount : ℕ
  bothCount : ℕ
  averageInterval : ℚ
deriving DecidableEq

/-- A chart: song id, difficulty, note list and metadata. -/
structure Chart where
  songId : String
  difficulty : String
  notes : List Note
  metadata : ChartMetadata
deriving DecidableEq

/-- The mutable state of the classification loop in `generate_chart`:
the accumulated notes and `last_time`. -/
structure GenState where
  notes : List Note
  last_time : ℚ
deriving DecidableEq

/-- One iteration of the event loop of `generate_chart`
(`chart_generator.py` lines 37-70): skip the event when it is closer than
`min_interval` to the last accepted time, otherwise classify with fixed
priority kick > snare > hihat using strict `>` comparisons, and emit a
note (time rounded to 3 digits, velocity to 2) when a category matched. -/
def classifyStep (cfg : DifficultyConfig) (mapping : Mapping)
    (st : GenState) (e : DrumEventIn) : GenState :=
  if e.time - st.last_time < cfg.min_interval then st
  else
    let kick_norm := e.kick_energy_norm.getD 0
    let snare_norm := e.snare_energy_norm.getD 0
    let hihat_norm := e.hihat_energy_norm.getD 0
    let nt : Option String × ℚ :=
      if kick_norm > cfg.kick_threshold then (some mapping.kick, kick_norm)
      else if snare_norm > cfg.snare_threshold then (some mapping.snare, snare_norm)
      else if hihat_norm > cfg.hihat_threshold then (some mapping.hihat, hihat_norm)
      else (none, 0)
    if pyTruthy nt.1 then
      { notes := st.notes ++
          [{ time := round3 e.time, type := nt.1.getD "", velocity := round2 nt.2 }]
        last_time := e.time }
    else st

/-- The consecutive time deltas `notes[i].time - notes[i-1].time`,
`i = 1 .. len-1`. -/
def timeDeltas (notes : List Note) : List ℚ :=
  (notes.zip notes.tail).map (fun p => p.2.time - p.1.time)

/-- `generate_chart` (`chart_generator.py` lines 10-96): run the
classification loop from `last_time = -999`, then assemble the chart with
its metadata (counts per type; `averageInterval` is the rounded mean of
consecutive deltas, `0` when fewer than two notes). -/
def generate_chart (drum_events : List DrumEventIn) (cfg : DifficultyConfig)
    (mapping : Mapping) (song_id difficulty : String) : Chart :=
  let final := drum_events.foldl (classifyStep cfg mapping)
    { notes := [], last_time := -999 }
  let notes := final.notes
  { songId := song_id
    difficulty := difficulty
    notes := notes
    metadata :=
      { generatedBy := "algorithm"
        noteCount := notes.length
        leftCount := (notes.filter (fun n => n.type == "left")).length
        rightCount := (notes.filter (fun n => n.type == "right")).length
        bothCount := (notes.filter (fun n => n.type == "both")).length
        averageInterval :=
          if 1 < notes.length then
            round3 ((timeDeltas notes).sum / ((notes.length : ℚ) - 1))
          else 0 } }

/-- A validation issue reported by `validate_chart`; the payloads mirror
the data interpolated into the Python message strings. -/
inductive Issue where
  | emptyChart : Issue
  | negativeTime (i : ℕ) (t : ℚ) : Issue
  | outOfRange (i : ℕ) (t : ℚ) (duration : ℚ) : Issue
  | badVelocity (i : ℕ) (v : ℚ) : Issue
  | badType (i : ℕ) (ty : String) : Issue
  | shortInterval (i : ℕ) (gap : ℚ) : Issue
deriving DecidableEq

/-- The issues contributed by the note at index `i` (with optional
predecessor `prev`), in the order the source appends them. -/
def noteIssues (audio_duration : ℚ) (i : ℕ) (prev : Option Note)
    (n : Note) : List Issue :=
  (if n.time < 0 then [Issue.negativeTime i n.time] else []) ++
  (if n.time > audio_duration then [Issue.outOfRange i n.time audio_duration] else []) ++
  (if ¬(0 ≤ n.velocity ∧ n.velocity ≤ 1) then [Issue.badVelocity i n.velocity] else []) ++
  (if ¬(n.type = "left" ∨ n.type = "right" ∨ n.type = "both")
    then [Issue.badType i n.type] else []) ++
  (match prev with
   | some p => if n.time - p.time < 3/20 then [Issue.shortInterval i (n.time - p.time)] else []
   | none => [])

/-- The `for i, note in enumerate(notes)` loop of `validate_chart`. -/
def validateLoop (audio_duration : ℚ) : ℕ → Option Note → List Note → List Issue
  | _, _, [] => []
  | i, prev, n :: rest =>
    noteIssues audio_duration i prev n ++
      validateLoop audio_duration (i + 1) (some n) rest

/-- `validate_chart` (`chart_generator.py` lines 99-150): an empty note
list yields the single "empty chart" issue immediately; otherwise all
per-note and consecutive-pair checks are accumulated. -/
def validate_chart (chart : Chart) (audio_duration : ℚ) : List Issue :=
  if chart.notes = [] then [Issue.emptyChart]
  else validateLoop audio_duration 0 none chart.notes

/-- Velocity-descending comparison used by
`sorted(notes, key=velocity, reverse=True)`. -/
def velDesc (a b : Note) : Prop := b.velocity ≤ a.velocity

/-- Time-ascending comparison used by `sorted(notes, key=time)`. -/
def timeAsc (a b : Note) : Prop := a.time ≤ b.time

instance : DecidableRel velDesc := fun a b =>
  inferInstanceAs (Decidable (b.velocity ≤ a.velocity))

instance : DecidableRel timeAsc := fun a b =>
  inferInstanceAs (Decidable (a.time ≤ b.time))

instance : IsTotal Note velDesc := ⟨fun a b => le_total b.velocity a.velocity⟩

instance : IsTrans Note velDesc := ⟨fun _ _ _ hab hbc => le_trans hbc hab⟩

instance : IsTotal Note timeAsc := ⟨fun a b => le_total a.time b.time⟩

instance : IsTrans Note timeAsc := ⟨fun _ _ _ hab hbc => le_trans hab hbc⟩

/-- `apply_density_filter` (`chart_generator.py` lines 153-178): at
density ≥ 1 return the input; otherwise keep the
`max(1, int(len(notes)*density))` highest-velocity notes (stable
descending sort) and re-sort them by time. -/
def apply_density_filter (notes : List Note) (target_density : ℚ) :
    List Note :=
  if 1 ≤ target_density then notes
  else
    let target_count : ℕ := max 1 (pyInt ((notes.length : ℚ) * target_density)).toNat
    let sorted_notes := List.insertionSort velDesc notes
    let selected_notes := sorted_notes.take target_count
    List.insertionSort timeAsc selected_notes

/-- The chart-assembly part of `generate_for_difficulty`
(`3_generate_chart.py` lines 66-79): generate the chart, and when
`note_density < 1` replace the notes by the density-filtered list,
updating only `metadata.noteCount`. -/
def generate_for_difficulty (events : List DrumEventIn)
    (cfg : DifficultyConfig) (mapping : Mapping)
    (song_id difficulty : String) : Chart :=
  let chart := generate_chart events cfg mapping song_id difficulty
  let note_density := cfg.note_density.getD 1
  if note_density < 1 then
    let newNotes := apply_density_filter chart.notes note_density
    { chart with
        notes := newNotes
        metadata := { chart.metadata with noteCount := newNotes.length } }
  else chart

end DrumChart

namespace DrumChart

/-! ### Arithmetic facts about the rounding helpers -/

theorem pyRound_le (x : ℚ) : (pyRound x : ℚ) ≤ x + 1/2 := by
  have h1 : ((⌊x⌋ : ℤ) : ℚ) ≤ x := Int.floor_le x
  have h2 : x < ((⌊x⌋ : ℤ) : ℚ) + 1 := Int.lt_floor_add_one x
  unfold pyRound
  split_ifs <;> push_cast <;> linarith

theorem le_pyRound (x : ℚ) : x - 1/2 ≤ (pyRound x : ℚ) := by
  have h1 : ((⌊x⌋ : ℤ) : ℚ) ≤ x := Int.floor_le x
  have h2 : x < ((⌊x⌋ : ℤ) : ℚ) + 1 := Int.lt_floor_add_one x
  unfold pyRound
  split_ifs <;> push_cast <;> linarith

theorem pyRound_intCast (n : ℤ) : pyRound (n : ℚ) = n := by
  unfold pyRound
  norm_num

theorem round3_le (x : ℚ) : round3 x ≤ x + 1/2000 := by
  have h := pyRound_le (1000 * x)
  unfold round3
  rw [div_le_iff₀ (by norm_num : (0:ℚ) < 1000)]
  linarith

theorem le_round3 (x : ℚ) : x - 1/2000 ≤ round3 x := by
  have h := le_pyRound (1000 * x)
  unfold round3
  rw [le_div_iff₀ (by norm_num : (0:ℚ) < 1000)]
  linarith

theorem round3_idem (x : ℚ) : round3 (round3 x) = round3 x := by
  unfold round3
  rw [show (1000 : ℚ) * ((pyRound (1000 * x) : ℚ) / 1000) =
      ((pyRound (1000 * x) : ℤ) : ℚ) by field_simp]
  rw [pyRound_intCast]

end DrumChart

namespace DrumChart

/-! ### C1: classification priority -/

/-- C1: when an event passes the minimum-interval check and all three
normalized energies strictly exceed their thresholds, the classifier
emits a note whose type is kick's mapping (priority kick > snare > hihat,
strict `>` comparisons); and an event exceeding no threshold emits no
note and leaves the state (including `last_time`) unchanged. -/
theorem c1_classification_priority (cfg : DifficultyConfig)
    (mapping : Mapping) (st : GenState) (e : DrumEventIn) :
    (cfg.min_interval ≤ e.time - st.last_time →
      cfg.kick_threshold < e.kick_energy_norm.getD 0 →
      cfg.snare_threshold < e.snare_energy_norm.getD 0 →
      cfg.hihat_threshold < e.hihat_energy_norm.getD 0 →
      mapping.kick ≠ "" →
      classifyStep cfg mapping st e =
        { notes := st.notes ++
            [{ time := round3 e.time, type := mapping.kick,
               velocity := round2 (e.kick_energy_norm.getD 0) }]
          last_time := e.time }) ∧
    (e.kick_energy_norm.getD 0 ≤ cfg.kick_threshold →
      e.snare_energy_norm.getD 0 ≤ cfg.snare_threshold →
      e.hihat_energy_norm.getD 0 ≤ cfg.hihat_threshold →
      classifyStep cfg mapping st e = st) := by
  constructor
  · intro hint hk _ _ hmap
    simp only [classifyStep, gt_iff_lt]
    rw [if_neg (not_lt.mpr hint), if_pos hk]
    simp [pyTruthy, bne_iff_ne, hmap]
  · intro hk hs hh
    simp only [classifyStep, gt_iff_lt]
    rw [if_neg (not_lt.mpr hk), if_neg (not_lt.mpr hs), if_neg (not_lt.mpr hh)]
    simp [pyTruthy]

/-- Witness for C1 at a concrete input: both threshold situations. -/
theorem c1_classification_priority_witness :
    ((1:ℚ)/10 ≤ (2:ℚ) - 0 ∧ (1:ℚ)/2 < 9/10 ∧ ("both" : String) ≠ "") ∧
    classifyStep ⟨1/2, 1/2, 1/2, 1/10, none⟩ ⟨"both", "right", "left"⟩
        ⟨[], 0⟩ ⟨2, some (9/10), some (9/10), some (9/10)⟩ =
      { notes := [{ time := round3 2, type := "both", velocity := round2 (9/10) }]
        last_time := 2 } ∧
    classifyStep ⟨1/2, 1/2, 1/2, 1/10, none⟩ ⟨"both", "right", "left"⟩
        ⟨[], 0⟩ ⟨2, some (1/10), some (1/10), some (1/10)⟩ = ⟨[], 0⟩ := by
  refine ⟨⟨by norm_num, by norm_num, by decide⟩, ?_, ?_⟩
  · exact (c1_classification_priority ⟨1/2, 1/2, 1/2, 1/10, none⟩
      ⟨"both", "right", "left"⟩ ⟨[], 0⟩ ⟨2, some (9/10), some (9/10), some (9/10)⟩).1
      (by norm_num) (by norm_num) (by norm_num) (by norm_num) (by decide)
  · exact (c1_classification_priority ⟨1/2, 1/2, 1/2, 1/10, none⟩
      ⟨"both", "right", "left"⟩ ⟨[], 0⟩ ⟨2, some (1/10), some (1/10), some (1/10)⟩).2
      (by norm_num) (by norm_num) (by norm_num)

/-! ### C10: missing normalized-energy fields default to 0 -/

/-- C10: the classifier reads missing `*_energy_norm` fields as 0
(`event.get(key, 0)`), so with nonnegative thresholds an event with all
three fields missing is never classified (the state is unchanged), and
when the kick field is missing no emitted note can come from the kick
branch. -/
theorem c10_missing_fields_default_zero (cfg : DifficultyConfig)
    (mapping : Mapping) (st : GenState) (e : DrumEventIn)
    (hk : 0 ≤ cfg.kick_threshold) (hs : 0 ≤ cfg.snare_threshold)
    (hh : 0 ≤ cfg.hihat_threshold) :
    (e.kick_energy_norm = none → e.snare_energy_norm = none →
      e.hihat_energy_norm = none → classifyStep cfg mapping st e = st) ∧
    (e.kick_energy_norm = none →
      ∀ n : Note, classifyStep cfg mapping st e =
          { notes := st.notes ++ [n], last_time := e.time } →
        n.type = mapping.snare ∨ n.type = mapping.hihat) := by
  constructor
  · intro h1 h2 h3
    simp only [classifyStep, h1, h2, h3, Option.getD_none, gt_iff_lt]
    rw [if_neg (not_lt.mpr hk), if_neg (not_lt.mpr hs), if_neg (not_lt.mpr hh)]
    simp [pyTruthy]
  · intro h1 n heq
    by_cases hskip : e.time - st.last_time < cfg.min_interval
    · rw [classifyStep, if_pos hskip] at heq
      have := congrArg (fun s : GenState => s.notes.length) heq
      simp at this
    · rw [classifyStep, if_neg hskip] at heq
      simp only [h1, Option.getD_none, gt_iff_lt, if_neg (not_lt.mpr hk)] at heq
      by_cases hsn : cfg.snare_threshold < e.snare_energy_norm.getD 0
      · rw [if_pos hsn] at heq
        by_cases htr : pyTruthy (some mapping.snare) = true
        · rw [if_pos htr] at heq
          have hnotes := (GenState.mk.injEq _ _ _ _).mp heq |>.1
          have := List.append_cancel_left hnotes
          simp at this
          left
          rw [← this]
        · rw [if_neg htr] at heq
          have := congrArg (fun s : GenState => s.notes.length) heq
          simp at this
      · rw [if_neg hsn] at heq
        by_cases hhi : cfg.hihat_threshold < e.hihat_energy_norm.getD 0
        · rw [if_pos hhi] at heq
          by_cases htr : pyTruthy (some mapping.hihat) = true
          · rw [if_pos htr] at heq
            have hnotes := (GenState.mk.injEq _ _ _ _).mp heq |>.1
            have := List.append_cancel_left hnotes
            simp at this
            right
            rw [← this]
          · rw [if_neg htr] at heq
            have := congrArg (fun s : GenState => s.notes.length) heq
            simp at this
        · rw [if_neg hhi] at heq
          simp only [pyTruthy] at heq
          rw [if_neg (by simp)] at heq
          have := congrArg (fun s : GenState => s.notes.length) heq
          simp at this

/-- Witness for C10 at a concrete input: an event with all three
normalized-energy fields missing is dropped. -/
theorem c10_missing_fields_default_zero_witness :
    (0:ℚ) ≤ 1/2 ∧
    classifyStep ⟨1/2, 1/2, 1/2, 1/10, none⟩ ⟨"both", "right", "left"⟩
        ⟨[], 0⟩ ⟨2, none, none, none⟩ = ⟨[], 0⟩ :=
  ⟨by norm_num,
   (c10_missing_fields_default_zero ⟨1/2, 1/2, 1/2, 1/10, none⟩
      ⟨"both", "right", "left"⟩ ⟨[], 0⟩ ⟨2, none, none, none⟩
      (by norm_num) (by norm_num) (by norm_num)).1 rfl rfl rfl⟩

end DrumChart

namespace DrumChart

/-! ### C4: `normalize_energies` on an empty event list -/

/-- C4 counterexample: contrary to the claim, `normalize_energies` applied
to the empty event list does not return the empty list — `max()` over an
empty generator raises `ValueError`. -/
theorem c4_counterexample :
    ¬ (normalize_energies [] = Except.ok []) := by
  intro h
  have h2 : Except.error (α := List DrumEvent)
      "ValueError: max() arg is an empty sequence" = Except.ok [] := h
  exact Except.noConfusion h2

/-- C4 amended: `normalize_energies` applied to an empty sequence of
events raises `ValueError` (from `max()` on an empty sequence) instead of
returning an empty sequence. -/
theorem c4_amended_empty_raises :
    normalize_energies [] =
      Except.error "ValueError: max() arg is an empty sequence" := rfl

/-! ### C9: the validator accumulates issues and handles the empty chart -/

theorem outOfRange_mem_noteIssues {d : ℚ} {i : ℕ} {prev : Option Note}
    {n : Note} (h : d < n.time) :
    Issue.outOfRange i n.time d ∈ noteIssues d i prev n := by
  unfold noteIssues
  refine List.mem_append_left _ (List.mem_append_left _
    (List.mem_append_left _ (List.mem_append_right _ ?_)))
  rw [if_pos h]
  exact List.mem_singleton.mpr rfl

theorem mem_validateLoop_outOfRange (d : ℚ) :
    ∀ (notes : List Note) (i0 : ℕ) (prev : Option Note) (j : ℕ)
      (h : j < notes.length),
      d < (notes.get ⟨j, h⟩).time →
        Issue.outOfRange (i0 + j) (notes.get ⟨j, h⟩).time d ∈
          validateLoop d i0 prev notes
  | [], _, _, j, h => absurd h (by simp)
  | n :: rest, i0, prev, 0, _ => by
    intro hd
    simp only [validateLoop, List.get]
    exact List.mem_append_left _ (outOfRange_mem_noteIssues hd)
  | n :: rest, i0, prev, j + 1, h => by
    intro hd
    simp only [validateLoop, List.get]
    refine List.mem_append_right _ ?_
    have hj : j < rest.length := by
      simpa using Nat.lt_of_succ_lt_succ h
    have := mem_validateLoop_outOfRange d rest (i0 + 1) (some n) j hj
      (by simpa using hd)
    rw [show i0 + (j + 1) = (i0 + 1) + j by omega]
    simpa using this

/-- C9: the validator is total and accumulates issues: an empty note list
yields exactly the single "empty chart" issue, and every note whose time
strictly exceeds the audio duration contributes an out-of-range issue to
the returned list, regardless of its position and of other issues. -/
theorem c9_validator_completeness (chart : Chart) (d : ℚ) :
    (chart.notes = [] → validate_chart chart d = [Issue.emptyChart]) ∧
    (∀ i (h : i < chart.notes.length),
      d < (chart.notes.get ⟨i, h⟩).time →
        Issue.outOfRange i (chart.notes.get ⟨i, h⟩).time d ∈
          validate_chart chart d) := by
  constructor
  · intro h
    rw [validate_chart, if_pos h]
  · intro i h hd
    have hne : ¬ chart.notes = [] := by
      intro hnil
      rw [hnil] at h
      simp at h
    rw [validate_chart, if_neg hne]
    have := mem_validateLoop_outOfRange d chart.notes 0 none i h hd
    simpa using this

/-- Witness for C9 at concrete inputs: the empty chart yields exactly one
issue, and a note at time 10 with duration 5 yields an out-of-range
issue. -/
theorem c9_validator_completeness_witness :
    validate_chart ⟨"s", "easy", [], ⟨"algorithm", 0, 0, 0, 0, 0⟩⟩ 5 =
      [Issue.emptyChart] ∧
    Issue.outOfRange 0 10 5 ∈
      validate_chart ⟨"s", "easy", [⟨10, "left", 1/2⟩],
        ⟨"algorithm", 1, 1, 0, 0, 0⟩⟩ 5 := by
  constructor
  · exact (c9_validator_completeness
      ⟨"s", "easy", [], ⟨"algorithm", 0, 0, 0, 0, 0⟩⟩ 5).1 rfl
  · exact (c9_validator_completeness
      ⟨"s", "easy", [⟨10, "left", 1/2⟩], ⟨"algorithm", 1, 1, 0, 0, 0⟩⟩ 5).2
      0 (by norm_num) (by norm_num [List.get])

end DrumChart

namespace DrumChart

/-! ### C5 and C8: properties of the time-base fuser -/

theorem combine_eq_sort (B O : List ℚ) (t : ℚ) :
    combine_beats_and_onsets B O t =
      List.insertionSort (fun a b => a ≤ b)
        (((O ++ B.filter (fun b => !(O.any (fun o => |b - o| < t)))).map
          round3).dedup) := rfl

theorem sorted_combine (B O : List ℚ) (t : ℚ) :
    List.Sorted (fun a b : ℚ => a ≤ b) (combine_beats_and_onsets B O t) :=
  List.sorted_insertionSort _ _

theorem nodup_combine (B O : List ℚ) (t : ℚ) :
    (combine_beats_and_onsets B O t).Nodup :=
  (List.perm_insertionSort _ _).nodup_iff.mpr (List.nodup_dedup _)

theorem mem_combine_iff {B O : List ℚ} {t x : ℚ} :
    x ∈ combine_beats_and_onsets B O t ↔
      x ∈ (O ++ B.filter (fun b => !(O.any (fun o => |b - o| < t)))).map
        round3 := by
  rw [combine_eq_sort, List.mem_insertionSort, List.mem_dedup]

theorem mem_combine_round3_fixed {B O : List ℚ} {t x : ℚ}
    (hx : x ∈ combine_beats_and_onsets B O t) : round3 x = x := by
  rw [mem_combine_iff] at hx
  obtain ⟨y, _, rfl⟩ := List.mem_map.mp hx
  exact round3_idem y

theorem map_round3_self {l : List ℚ} (h : ∀ x ∈ l, round3 x = x) :
    l.map round3 = l := by
  induction l with
  | nil => rfl
  | cons a l ih =>
    simp only [List.map_cons, List.cons.injEq]
    exact ⟨h a (List.mem_cons_self a l), ih fun x hx => h x (List.mem_cons_of_mem a hx)⟩

/-- C5: for sorted inputs and any tolerance, every onset time appears
(rounded to millisecond precision) in the fused result, the result's
length is at most `len onsets + len beats`, and the result is the
rounded, deduplicated, ascending-sorted union of onsets and surviving
beats. -/
theorem c5_fusion_superset (beat_times onset_times : List ℚ)
    (tolerance : ℚ) (_hb : List.Sorted (fun a b : ℚ => a ≤ b) beat_times)
    (_ho : List.Sorted (fun a b : ℚ => a ≤ b) onset_times) :
    (∀ o ∈ onset_times,
      round3 o ∈ combine_beats_and_onsets beat_times onset_times tolerance) ∧
    (combine_beats_and_onsets beat_times onset_times tolerance).length ≤
      onset_times.length + beat_times.length ∧
    List.Sorted (fun a b : ℚ => a ≤ b)
      (combine_beats_and_onsets beat_times onset_times tolerance) ∧
    (combine_beats_and_onsets beat_times onset_times tolerance).Nodup ∧
    ∀ x ∈ combine_beats_and_onsets beat_times onset_times tolerance,
      ∃ y, (y ∈ onset_times ∨ y ∈ beat_times) ∧ x = round3 y := by
  refine ⟨?_, ?_, sorted_combine _ _ _, nodup_combine _ _ _, ?_⟩
  · intro o hoo
    rw [mem_combine_iff]
    exact List.mem_map_of_mem round3 (List.mem_append_left _ hoo)
  · rw [combine_eq_sort, List.length_insertionSort]
    calc (((onset_times ++ _).map round3).dedup).length
        ≤ ((onset_times ++ beat_times.filter _).map round3).length :=
          (List.dedup_sublist _).length_le
      _ = onset_times.length + (beat_times.filter _).length := by
          rw [List.length_map, List.length_append]
      _ ≤ onset_times.length + beat_times.length :=
          Nat.add_le_add_left (List.length_filter_le _ _) _
  · intro x hx
    rw [mem_combine_iff] at hx
    obtain ⟨y, hy, rfl⟩ := List.mem_map.mp hx
    rcases List.mem_append.mp hy with h | h
    · exact ⟨y, Or.inl h, rfl⟩
    · exact ⟨y, Or.inr (List.mem_of_mem_filter h), rfl⟩

/-- Witness for C5 at a concrete input. -/
theorem c5_fusion_superset_witness :
    List.Sorted (fun a b : ℚ => a ≤ b) [1/2, 1] ∧
    List.Sorted (fun a b : ℚ => a ≤ b) [1/1000, 1/2] ∧
    ((∀ o ∈ ([1/1000, 1/2] : List ℚ),
      round3 o ∈ combine_beats_and_onsets [1/2, 1] [1/1000, 1/2] (1/10)) ∧
    (combine_beats_and_onsets [1/2, 1] [1/1000, 1/2] (1/10)).length ≤
      ([1/1000, 1/2] : List ℚ).length + ([1/2, 1] : List ℚ).length ∧
    List.Sorted (fun a b : ℚ => a ≤ b)
      (combine_beats_and_onsets [1/2, 1] [1/1000, 1/2] (1/10)) ∧
    (combine_beats_and_onsets [1/2, 1] [1/1000, 1/2] (1/10)).Nodup ∧
    ∀ x ∈ combine_beats_and_onsets [1/2, 1] [1/1000, 1/2] (1/10),
      ∃ y, (y ∈ ([1/1000, 1/2] : List ℚ) ∨ y ∈ ([1/2, 1] : List ℚ)) ∧
        x = round3 y) := by
  have hb : List.Sorted (fun a b : ℚ => a ≤ b) [1/2, 1] := by
    norm_num [List.sorted_cons]
  have ho : List.Sorted (fun a b : ℚ => a ≤ b) [1/1000, 1/2] := by
    norm_num [List.sorted_cons]
  exact ⟨hb, ho, c5_fusion_superset [1/2, 1] [1/1000, 1/2] (1/10) hb ho⟩

theorem combine_empty_onsets (B : List ℚ) (t : ℚ) :
    combine_beats_and_onsets B [] t =
      List.insertionSort (fun a b => a ≤ b) ((B.map round3).dedup) := by
  unfold combine_beats_and_onsets
  simp

/-- C8: the fuser is idempotent — fusing a previous fusion result with an
empty onset set returns it unchanged — and with an empty onset set the
result is exactly the rounded, deduplicated, sorted beat times. -/
theorem c8_fusion_idempotence (B O : List ℚ) (t : ℚ) (_ht : 0 ≤ t) :
    combine_beats_and_onsets (combine_beats_and_onsets B O t) [] t =
      combine_beats_and_onsets B O t ∧
    combine_beats_and_onsets B [] t =
      List.insertionSort (fun a b => a ≤ b) ((B.map round3).dedup) := by
  refine ⟨?_, combine_empty_onsets B t⟩
  rw [combine_empty_onsets]
  rw [map_round3_self (fun x hx => mem_combine_round3_fixed hx)]
  rw [List.dedup_eq_self.mpr (nodup_combine B O t)]
  exact (sorted_combine B O t).insertionSort_eq

/-- Witness for C8 at a concrete input. -/
theorem c8_fusion_idempotence_witness :
    (0:ℚ) ≤ 1/10 ∧
    (combine_beats_and_onsets
        (combine_beats_and_onsets [1/2, 1] [1/1000, 1/2] (1/10)) [] (1/10) =
      combine_beats_and_onsets [1/2, 1] [1/1000, 1/2] (1/10) ∧
    combine_beats_and_onsets [1/2, 1] [] (1/10) =
      List.insertionSort (fun a b => a ≤ b)
        ((([1/2, 1] : List ℚ).map round3).dedup)) :=
  ⟨by norm_num, c8_fusion_idempotence [1/2, 1] [1/1000, 1/2] (1/10) (by norm_num)⟩

end DrumChart

namespace DrumChart

/-! ### C7: normalization bounds -/

theorem le_foldl_max (x : ℚ) (xs : List ℚ) : x ≤ xs.foldl max x := by
  induction xs generalizing x with
  | nil => exact le_refl x
  | cons a as ih =>
    exact le_trans (le_max_left x a) (ih (max x a))

theorem foldl_max_mem (x : ℚ) (xs : List ℚ) :
    xs.foldl max x ∈ x :: xs := by
  induction xs generalizing x with
  | nil => exact List.mem_singleton.mpr rfl
  | cons a as ih =>
    rcases List.mem_cons.mp (ih (max x a)) with h | h
    · rcases max_choice x a with hx | hx
      · rw [List.foldl_cons, h, hx]
        exact List.mem_cons_self _ _
      · rw [List.foldl_cons, h, hx]
        exact List.mem_cons_of_mem _ (List.mem_cons_self _ _)
    · exact List.mem_cons_of_mem _ (List.mem_cons_of_mem _ h)

theorem mem_le_foldl_max (x y : ℚ) (xs : List ℚ) (h : y ∈ xs) :
    y ≤ xs.foldl max x := by
  induction xs generalizing x with
  | nil => exact absurd h (List.not_mem_nil y)
  | cons a as ih =>
    rcases List.mem_cons.mp h with rfl | hmem
    · exact le_trans (le_max_right x y) (le_foldl_max (max x y) as)
    · exact ih (max x a) hmem

theorem band_norm_facts (x0 : ℚ) (vals : List ℚ)
    (hnn : ∀ y ∈ x0 :: vals, 0 ≤ y) :
    (∀ y ∈ x0 :: vals,
      0 ≤ y / pyOr1 (vals.foldl max x0) ∧ y / pyOr1 (vals.foldl max x0) ≤ 1) ∧
    ((∃ y ∈ x0 :: vals, y ≠ 0) →
      ∃ y ∈ x0 :: vals, y / pyOr1 (vals.foldl max x0) = 1) ∧
    ((∀ y ∈ x0 :: vals, y = 0) →
      ∀ y ∈ x0 :: vals, y / pyOr1 (vals.foldl max x0) = 0) := by
  have hub : ∀ y ∈ x0 :: vals, y ≤ vals.foldl max x0 := by
    intro y hy
    rcases List.mem_cons.mp hy with rfl | hmem
    · exact le_foldl_max y vals
    · exact mem_le_foldl_max x0 y vals hmem
  have hmnn : 0 ≤ vals.foldl max x0 :=
    hnn _ (foldl_max_mem x0 vals)
  by_cases hz : vals.foldl max x0 = 0
  · have hall0 : ∀ y ∈ x0 :: vals, y = 0 := fun y hy =>
      le_antisymm (hz ▸ hub y hy) (hnn y hy)
    refine ⟨?_, ?_, ?_⟩
    · intro y hy
      rw [hall0 y hy, zero_div]
      norm_num
    · intro ⟨y, hy, hy0⟩
      exact absurd (hall0 y hy) hy0
    · intro _ y hy
      rw [hall0 y hy, zero_div]
  · have hpos : 0 < vals.foldl max x0 := lt_of_le_of_ne hmnn (Ne.symm hz)
    have hdiv : pyOr1 (vals.foldl max x0) = vals.foldl max x0 := if_neg hz
    refine ⟨?_, ?_, ?_⟩
    · intro y hy
      rw [hdiv]
      exact ⟨div_nonneg (hnn y hy) hmnn,
        (div_le_one hpos).mpr (hub y hy)⟩
    · intro _
      refine ⟨vals.foldl max x0, foldl_max_mem x0 vals, ?_⟩
      rw [hdiv]
      exact div_self hz
    · intro hall
      exact (hz (hall _ (foldl_max_mem x0 vals))).elim

end DrumChart

namespace DrumChart

/-- C7: on a non-empty event list with nonnegative raw energies, after
normalization every normalized energy lies in `[0,1]`; in each band some
event attains exactly `1` unless all raw energies of that band are zero,
in which case the divisor is replaced by `1` and all normalized values of
that band are `0`. -/
theorem c7_normalization_bounds (events : List DrumEventRaw)
    (hne : events ≠ [])
    (hnn : ∀ e ∈ events,
      0 ≤ e.kick_energy ∧ 0 ≤ e.snare_energy ∧ 0 ≤ e.hihat_energy) :
    ∃ res, normalize_energies events = Except.ok res ∧
      (∀ e ∈ res,
        (0 ≤ e.kick_energy_norm ∧ e.kick_energy_norm ≤ 1) ∧
        (0 ≤ e.snare_energy_norm ∧ e.snare_energy_norm ≤ 1) ∧
        (0 ≤ e.hihat_energy_norm ∧ e.hihat_energy_norm ≤ 1)) ∧
      ((∃ e ∈ events, e.kick_energy ≠ 0) →
        ∃ e ∈ res, e.kick_energy_norm = 1) ∧
      ((∃ e ∈ events, e.snare_energy ≠ 0) →
        ∃ e ∈ res, e.snare_energy_norm = 1) ∧
      ((∃ e ∈ events, e.hihat_energy ≠ 0) →
        ∃ e ∈ res, e.hihat_energy_norm = 1) ∧
      ((∀ e ∈ events, e.kick_energy = 0) →
        ∀ e ∈ res, e.kick_energy_norm = 0) ∧
      ((∀ e ∈ events, e.snare_energy = 0) →
        ∀ e ∈ res, e.snare_energy_norm = 0) ∧
      ((∀ e ∈ events, e.hihat_energy = 0) →
        ∀ e ∈ res, e.hihat_energy_norm = 0) := by
  match events, hne with
  | e0 :: rest, _ =>
  have hK := band_norm_facts e0.kick_energy (rest.map (fun x => x.kick_energy))
    (by
      rw [show e0.kick_energy :: rest.map (fun x => x.kick_energy) =
        (e0 :: rest).map (fun x => x.kick_energy) from rfl]
      intro y hy
      obtain ⟨e, he, rfl⟩ := List.mem_map.mp hy
      exact (hnn e he).1)
  have hS := band_norm_facts e0.snare_energy (rest.map (fun x => x.snare_energy))
    (by
      rw [show e0.snare_energy :: rest.map (fun x => x.snare_energy) =
        (e0 :: rest).map (fun x => x.snare_energy) from rfl]
      intro y hy
      obtain ⟨e, he, rfl⟩ := List.mem_map.mp hy
      exact (hnn e he).2.1)
  have hH := band_norm_facts e0.hihat_energy (rest.map (fun x => x.hihat_energy))
    (by
      rw [show e0.hihat_energy :: rest.map (fun x => x.hihat_energy) =
        (e0 :: rest).map (fun x => x.hihat_energy) from rfl]
      intro y hy
      obtain ⟨e, he, rfl⟩ := List.mem_map.mp hy
      exact (hnn e he).2.2)
  have hmemK : ∀ e ∈ e0 :: rest, e.kick_energy ∈
      e0.kick_energy :: rest.map (fun x => x.kick_energy) := fun e he =>
    List.mem_map_of_mem (fun x => x.kick_energy) he
  have hmemS : ∀ e ∈ e0 :: rest, e.snare_energy ∈
      e0.snare_energy :: rest.map (fun x => x.snare_energy) := fun e he =>
    List.mem_map_of_mem (fun x => x.snare_energy) he
  have hmemH : ∀ e ∈ e0 :: rest, e.hihat_energy ∈
      e0.hihat_energy :: rest.map (fun x => x.hihat_energy) := fun e he =>
    List.mem_map_of_mem (fun x => x.hihat_energy) he
  refine ⟨_, rfl, ?_, ?_, ?_, ?_, ?_, ?_, ?_⟩
  · intro e' he'
    obtain ⟨e, he, rfl⟩ := List.mem_map.mp he'
    exact ⟨hK.1 _ (hmemK e he), hS.1 _ (hmemS e he), hH.1 _ (hmemH e he)⟩
  · intro ⟨e, he, hke⟩
    obtain ⟨y, hy, hy1⟩ := hK.2.1 ⟨e.kick_energy, hmemK e he, hke⟩
    obtain ⟨e', he', rfl⟩ := List.mem_map.mp
      (show y ∈ (e0 :: rest).map (fun x => x.kick_energy) from hy)
    exact ⟨_, List.mem_map_of_mem _ he', hy1⟩
  · intro ⟨e, he, hke⟩
    obtain ⟨y, hy, hy1⟩ := hS.2.1 ⟨e.snare_energy, hmemS e he, hke⟩
    obtain ⟨e', he', rfl⟩ := List.mem_map.mp
      (show y ∈ (e0 :: rest).map (fun x => x.snare_energy) from hy)
    exact ⟨_, List.mem_map_of_mem _ he', hy1⟩
  · intro ⟨e, he, hke⟩
    obtain ⟨y, hy, hy1⟩ := hH.2.1 ⟨e.hihat_energy, hmemH e he, hke⟩
    obtain ⟨e', he', rfl⟩ := List.mem_map.mp
      (show y ∈ (e0 :: rest).map (fun x => x.hihat_energy) from hy)
    exact ⟨_, List.mem_map_of_mem _ he', hy1⟩
  · intro hall e' he'
    obtain ⟨e, he, rfl⟩ := List.mem_map.mp he'
    refine hK.2.2 ?_ _ (hmemK e he)
    intro y hy
    obtain ⟨e'', he'', rfl⟩ := List.mem_map.mp
      (show y ∈ (e0 :: rest).map (fun x => x.kick_energy) from hy)
    exact hall e'' he''
  · intro hall e' he'
    obtain ⟨e, he, rfl⟩ := List.mem_map.mp he'
    refine hS.2.2 ?_ _ (hmemS e he)
    intro y hy
    obtain ⟨e'', he'', rfl⟩ := List.mem_map.mp
      (show y ∈ (e0 :: rest).map (fun x => x.snare_energy) from hy)
    exact hall e'' he''
  · intro hall e' he'
    obtain ⟨e, he, rfl⟩ := List.mem_map.mp he'
    refine hH.2.2 ?_ _ (hmemH e he)
    intro y hy
    obtain ⟨e'', he'', rfl⟩ := List.mem_map.mp
      (show y ∈ (e0 :: rest).map (fun x => x.hihat_energy) from hy)
    exact hall e'' he''

/-- Witness for C7 at a concrete input (the snare band is all-zero, the
kick and hihat bands each attain 1). -/
theorem c7_normalization_bounds_witness :
    ([⟨0, 2, 0, 1⟩, ⟨1, 1, 0, 3⟩] : List DrumEventRaw) ≠ [] ∧
    ∃ res, normalize_energies [⟨0, 2, 0, 1⟩, ⟨1, 1, 0, 3⟩] =
        Except.ok res ∧
      (∀ e ∈ res,
        (0 ≤ e.kick_energy_norm ∧ e.kick_energy_norm ≤ 1) ∧
        (0 ≤ e.snare_energy_norm ∧ e.snare_energy_norm ≤ 1) ∧
        (0 ≤ e.hihat_energy_norm ∧ e.hihat_energy_norm ≤ 1)) ∧
      ((∃ e ∈ ([⟨0, 2, 0, 1⟩, ⟨1, 1, 0, 3⟩] : List DrumEventRaw),
          e.kick_energy ≠ 0) → ∃ e ∈ res, e.kick_energy_norm = 1) ∧
      ((∃ e ∈ ([⟨0, 2, 0, 1⟩, ⟨1, 1, 0, 3⟩] : List DrumEventRaw),
          e.snare_energy ≠ 0) → ∃ e ∈ res, e.snare_energy_norm = 1) ∧
      ((∃ e ∈ ([⟨0, 2, 0, 1⟩, ⟨1, 1, 0, 3⟩] : List DrumEventRaw),
          e.hihat_energy ≠ 0) → ∃ e ∈ res, e.hihat_energy_norm = 1) ∧
      ((∀ e ∈ ([⟨0, 2, 0, 1⟩, ⟨1, 1, 0, 3⟩] : List DrumEventRaw),
          e.kick_energy = 0) → ∀ e ∈ res, e.kick_energy_norm = 0) ∧
      ((∀ e ∈ ([⟨0, 2, 0, 1⟩, ⟨1, 1, 0, 3⟩] : List DrumEventRaw),
          e.snare_energy = 0) → ∀ e ∈ res, e.snare_energy_norm = 0) ∧
      ((∀ e ∈ ([⟨0, 2, 0, 1⟩, ⟨1, 1, 0, 3⟩] : List DrumEventRaw),
          e.hihat_energy = 0) → ∀ e ∈ res, e.hihat_energy_norm = 0) :=
  ⟨by decide,
   c7_normalization_bounds [⟨0, 2, 0, 1⟩, ⟨1, 1, 0, 3⟩] (by decide)
     (by norm_num)⟩

end DrumChart

namespace DrumChart

/-! ### C2: minimum spacing of adjacent output notes -/

/-- Adjacent emitted notes are at least `minI - 0.001` apart (`0.001`
absorbs the millisecond rounding of the stored times). -/
def minIntervalRel (minI : ℚ) (a b : Note) : Prop :=
  a.time + minI - 1/1000 ≤ b.time

/-- Invariant of the classification loop: the accumulated notes form a
`minIntervalRel` chain and the last stored (rounded) time is within
`1/2000` above `last_time` (the unrounded time of the last accepted
event). -/
def IntervalInv (minI : ℚ) (st : GenState) : Prop :=
  List.Chain' (minIntervalRel minI) st.notes ∧
  ∀ n ∈ st.notes.getLast?, n.time ≤ st.last_time + 1/2000

theorem IntervalInv.emit {minI : ℚ} {st : GenState} {tNew : ℚ}
    {ty : String} {v : ℚ} (h : IntervalInv minI st)
    (hgap : st.last_time + minI ≤ tNew) :
    IntervalInv minI
      { notes := st.notes ++ [{ time := round3 tNew, type := ty, velocity := v }]
        last_time := tNew } := by
  constructor
  · refine List.Chain'.append h.1 (List.chain'_singleton _) ?_
    intro x hx y hy
    have hy' : y = { time := round3 tNew, type := ty, velocity := v } := by
      have := hy
      simp at this
      exact this.symm
    have hx' := h.2 x hx
    have hr := le_round3 tNew
    rw [hy']
    unfold minIntervalRel
    dsimp only
    linarith
  · intro n hn
    rw [List.getLast?_append_cons] at hn
    have hn' : n = { time := round3 tNew, type := ty, velocity := v } := by
      have := hn
      simp at this
      exact this.symm
    rw [hn']
    dsimp only
    have := round3_le tNew
    linarith

theorem classifyStep_interval_inv (cfg : DifficultyConfig)
    (mapping : Mapping) (st : GenState) (e : DrumEventIn)
    (h : IntervalInv cfg.min_interval st) :
    IntervalInv cfg.min_interval (classifyStep cfg mapping st e) := by
  by_cases h1 : e.time - st.last_time < cfg.min_interval
  · simp only [classifyStep, if_pos h1]
    exact h
  · simp only [classifyStep, if_neg h1]
    have hgap : st.last_time + cfg.min_interval ≤ e.time := by
      push_neg at h1
      linarith
    split_ifs <;> first
      | exact h
      | exact h.emit hgap

theorem foldl_interval_inv (cfg : DifficultyConfig) (mapping : Mapping) :
    ∀ (events : List DrumEventIn) (st : GenState),
      IntervalInv cfg.min_interval st →
      IntervalInv cfg.min_interval
        (events.foldl (classifyStep cfg mapping) st)
  | [], _st, h => h
  | e :: rest, st, h =>
    foldl_interval_inv cfg mapping rest (classifyStep cfg mapping st e)
      (classifyStep_interval_inv cfg mapping st e h)

/-- C2: for a time-ascending event sequence, adjacent notes of the
generated chart are at least `min_interval` apart up to the millisecond
rounding tolerance `0.001`: `notes[i+1].time - notes[i].time ≥
min_interval - 0.001`. -/
theorem c2_minimum_interval (events : List DrumEventIn)
    (cfg : DifficultyConfig) (mapping : Mapping)
    (song_id difficulty : String)
    (_hasc : List.Chain' (fun a b : DrumEventIn => a.time ≤ b.time) events) :
    ∀ i, i + 1 <
        (generate_chart events cfg mapping song_id difficulty).notes.length →
      cfg.min_interval - 1/1000 ≤
        ((generate_chart events cfg mapping song_id difficulty).notes.getD
            (i + 1) ⟨0, "", 0⟩).time -
        ((generate_chart events cfg mapping song_id difficulty).notes.getD
            i ⟨0, "", 0⟩).time := by
  intro i hi
  have hinv : IntervalInv cfg.min_interval
      (events.foldl (classifyStep cfg mapping) { notes := [], last_time := -999 }) :=
    foldl_interval_inv cfg mapping events _ ⟨List.chain'_nil, by simp⟩
  have hchain := hinv.1
  have hnotes : (generate_chart events cfg mapping song_id difficulty).notes =
      (events.foldl (classifyStep cfg mapping)
        { notes := [], last_time := -999 }).notes := rfl
  rw [hnotes] at hi ⊢
  set l := (events.foldl (classifyStep cfg mapping)
    { notes := [], last_time := -999 }).notes with hl
  have h0 : i < l.length := by omega
  have h1 : i + 1 < l.length := hi
  rw [List.getD_eq_getElem _ _ h1, List.getD_eq_getElem _ _ h0]
  have hadj := List.chain'_iff_get.mp hchain i (by omega)
  unfold minIntervalRel at hadj
  simp only [List.get_eq_getElem] at hadj
  linarith

/-- Witness for C2 at a concrete input: two events 1 second apart with
`min_interval = 1/10`. -/
theorem c2_minimum_interval_witness :
    List.Chain' (fun a b : DrumEventIn => a.time ≤ b.time)
      [⟨0, some (9/10), some 0, some 0⟩, ⟨1, some 0, some (1/2), some 0⟩] ∧
    (1:ℚ)/10 - 1/1000 ≤
      ((generate_chart [⟨0, some (9/10), some 0, some 0⟩, ⟨1, some 0, some (1/2), some 0⟩]
          ⟨1/10, 1/10, 1/10, 1/10, none⟩ ⟨"both", "right", "left"⟩ "s" "easy").notes.getD
          1 ⟨0, "", 0⟩).time -
      ((generate_chart [⟨0, some (9/10), some 0, some 0⟩, ⟨1, some 0, some (1/2), some 0⟩]
          ⟨1/10, 1/10, 1/10, 1/10, none⟩ ⟨"both", "right", "left"⟩ "s" "easy").notes.getD
          0 ⟨0, "", 0⟩).time := by
  have hasc : List.Chain' (fun a b : DrumEventIn => a.time ≤ b.time)
      [⟨0, some (9/10), some 0, some 0⟩, ⟨1, some 0, some (1/2), some 0⟩] := by
    refine List.chain'_cons.mpr ⟨by norm_num, List.chain'_singleton _⟩
  refine ⟨hasc, ?_⟩
  have hstep1 : classifyStep ⟨1/10, 1/10, 1/10, 1/10, none⟩ ⟨"both", "right", "left"⟩
      { notes := [], last_time := -999 } ⟨0, some (9/10), some 0, some 0⟩ =
      { notes := [⟨0, "both", 9/10⟩], last_time := 0 } := by
    norm_num [classifyStep, pyTruthy, round3, round2, pyRound]
    decide
  have hstep2 : classifyStep ⟨1/10, 1/10, 1/10, 1/10, none⟩ ⟨"both", "right", "left"⟩
      { notes := [⟨0, "both", 9/10⟩], last_time := 0 } ⟨1, some 0, some (1/2), some 0⟩ =
      { notes := [⟨0, "both", 9/10⟩, ⟨1, "right", 1/2⟩], last_time := 1 } := by
    norm_num [classifyStep, pyTruthy, round3, round2, pyRound]
    decide
  have hnotes : (generate_chart
      [⟨0, some (9/10), some 0, some 0⟩, ⟨1, some 0, some (1/2), some 0⟩]
      ⟨1/10, 1/10, 1/10, 1/10, none⟩ ⟨"both", "right", "left"⟩ "s" "easy").notes =
      [⟨0, "both", 9/10⟩, ⟨1, "right", 1/2⟩] := by
    simp only [generate_chart]
    rw [List.foldl_cons, hstep1, List.foldl_cons, hstep2, List.foldl_nil]
  refine c2_minimum_interval _ _ _ "s" "easy" hasc 0 ?_
  rw [hnotes]
  norm_num

end DrumChart

namespace DrumChart

/-! ### C6: density filter -/

theorem filter_orderedInsert_vel (v : ℚ) (a : Note) :
    ∀ l : List Note,
      (List.orderedInsert velDesc a l).filter (fun n => n.velocity == v) =
        if a.velocity = v
        then a :: l.filter (fun n => n.velocity == v)
        else l.filter (fun n => n.velocity == v)
  | [] => by
    by_cases hv : a.velocity = v
    · simp [List.orderedInsert, List.filter_cons, beq_iff_eq, hv]
    · simp [List.orderedInsert, List.filter_cons, beq_iff_eq, hv]
  | b :: bs => by
    simp only [List.orderedInsert]
    by_cases hr : velDesc a b
    · rw [if_pos hr]
      by_cases hv : a.velocity = v
      · simp [List.filter_cons, beq_iff_eq, hv]
      · simp [List.filter_cons, beq_iff_eq, hv]
    · rw [if_neg hr]
      have hav : a.velocity < b.velocity := not_le.mp hr
      by_cases hbv : b.velocity = v
      · have hanv : ¬ a.velocity = v := by
          intro hc
          rw [hc, ← hbv] at hav
          exact lt_irrefl _ hav
        simp [List.filter_cons, beq_iff_eq, hbv, filter_orderedInsert_vel v a bs, hanv]
      · simp [List.filter_cons, beq_iff_eq, hbv, filter_orderedInsert_vel v a bs]

theorem filter_insertionSort_vel (v : ℚ) :
    ∀ l : List Note,
      (List.insertionSort velDesc l).filter (fun n => n.velocity == v) =
        l.filter (fun n => n.velocity == v)
  | [] => rfl
  | a :: l => by
    simp only [List.insertionSort]
    rw [filter_orderedInsert_vel v a (List.insertionSort velDesc l),
      filter_insertionSort_vel v l]
    by_cases hv : a.velocity = v
    · rw [if_pos hv, List.filter_cons]
      simp [beq_iff_eq, hv]
    · rw [if_neg hv, List.filter_cons]
      simp [beq_iff_eq, hv]

/-- C6 counterexample: on the empty note list with density `1/2` the
filter returns 0 notes, not the `max(1, floor(len*d)) = 1` the claim
demands for every note list. -/
theorem c6_density_filter_counterexample :
    ¬ (((apply_density_filter ([] : List Note) (1/2)).length : ℤ) =
        max 1 ⌊((([] : List Note).length : ℚ)) * (1/2)⌋) := by
  norm_num [apply_density_filter]

/-- C6 amended: for `d ≥ 1` the input is returned unchanged; for a
NON-EMPTY note list and `d ∈ (0,1)` the output has length
`max(1, floor(len*d))`, is sorted ascending by time, consists of
highest-velocity notes (every kept note's velocity is at least every
dropped note's velocity), and ties are broken stably (for each velocity
class the kept notes are an initial segment, in original order, of that
class); on the empty list the output is empty, not of length 1. -/
theorem c6_density_filter_amended (notes : List Note) (d : ℚ) :
    (1 ≤ d → apply_density_filter notes d = notes) ∧
    (notes ≠ [] → 0 < d → d < 1 →
      (((apply_density_filter notes d).length : ℤ) =
          max 1 ⌊(notes.length : ℚ) * d⌋ ∧
        List.Sorted timeAsc (apply_density_filter notes d) ∧
        (∃ dropped : List Note,
          notes.Perm (apply_density_filter notes d ++ dropped) ∧
          ∀ a ∈ apply_density_filter notes d, ∀ b ∈ dropped,
            b.velocity ≤ a.velocity) ∧
        (∀ v : ℚ, ∃ k, ((apply_density_filter notes d).filter
            (fun n => n.velocity == v)).Perm
              ((notes.filter (fun n => n.velocity == v)).take k)))) := by
  constructor
  · intro hd
    unfold apply_density_filter
    rw [if_pos hd]
  · intro hne hd0 hd1
    have hnd : ¬ 1 ≤ d := not_le.mpr hd1
    have hout : apply_density_filter notes d =
        List.insertionSort timeAsc
          ((List.insertionSort velDesc notes).take
            (max 1 (pyInt ((notes.length : ℚ) * d)).toNat)) := by
      unfold apply_density_filter
      rw [if_neg hnd]
    have hlen_pos : 0 < notes.length := List.length_pos.mpr hne
    have hfl : (0:ℚ) ≤ (notes.length : ℚ) * d :=
      mul_nonneg (by positivity) (le_of_lt hd0)
    have hpyInt : pyInt ((notes.length : ℚ) * d) =
        ⌊(notes.length : ℚ) * d⌋ := if_pos hfl
    have hfloor_nonneg : 0 ≤ ⌊(notes.length : ℚ) * d⌋ :=
      Int.floor_nonneg.mpr hfl
    have hmul_lt : (notes.length : ℚ) * d < (notes.length : ℚ) :=
      mul_lt_of_lt_one_right (by exact_mod_cast hlen_pos) hd1
    have hfloor_lt : ⌊(notes.length : ℚ) * d⌋ < (notes.length : ℤ) :=
      Int.floor_lt.mpr (by push_cast; exact hmul_lt)
    set tc : ℕ := max 1 (pyInt ((notes.length : ℚ) * d)).toNat with htc
    have htc_le : tc ≤ notes.length := by
      rw [htc, hpyInt]
      omega
    set sorted_notes := List.insertionSort velDesc notes with hsn
    have hsn_len : sorted_notes.length = notes.length :=
      List.length_insertionSort velDesc notes
    set sel := sorted_notes.take tc with hsel
    have hsel_len : sel.length = tc := by
      rw [hsel, List.length_take, hsn_len]
      omega
    have p1 : sorted_notes.Perm notes := List.perm_insertionSort velDesc notes
    have p2 : (List.insertionSort timeAsc sel).Perm sel :=
      List.perm_insertionSort timeAsc sel
    have heq : sel ++ sorted_notes.drop tc = sorted_notes :=
      List.take_append_drop tc sorted_notes
    refine ⟨?_, ?_, ?_, ?_⟩
    · rw [hout]
      rw [show (List.insertionSort timeAsc sel).length = sel.length from
        p2.length_eq]
      rw [hsel_len, htc, hpyInt]
      omega
    · rw [hout]
      exact List.sorted_insertionSort timeAsc sel
    · refine ⟨sorted_notes.drop tc, ?_, ?_⟩
      · rw [hout]
        have h3 : notes.Perm (sel ++ sorted_notes.drop tc) := by
          rw [heq]
          exact p1.symm
        exact h3.trans ((p2.append_right (sorted_notes.drop tc)).symm)
      · intro a ha b hb
        rw [hout] at ha
        have ha' : a ∈ sel := p2.mem_iff.mp ha
        have hsorted : List.Pairwise velDesc sorted_notes :=
          List.sorted_insertionSort velDesc notes
        have hpw : List.Pairwise velDesc (sel ++ sorted_notes.drop tc) := by
          rw [heq]
          exact hsorted
        exact (List.pairwise_append.mp hpw).2.2 a ha' b hb
    · intro v
      refine ⟨(sel.filter (fun n => n.velocity == v)).length, ?_⟩
      have hstab : sorted_notes.filter (fun n => n.velocity == v) =
          notes.filter (fun n => n.velocity == v) :=
        filter_insertionSort_vel v notes
      have hsplit : sel.filter (fun n => n.velocity == v) ++
          (sorted_notes.drop tc).filter (fun n => n.velocity == v) =
          sorted_notes.filter (fun n => n.velocity == v) := by
        rw [← List.filter_append, heq]
      have htake : (notes.filter (fun n => n.velocity == v)).take
          ((sel.filter (fun n => n.velocity == v)).length) =
          sel.filter (fun n => n.velocity == v) := by
        rw [← hstab, ← hsplit]
        exact List.take_left _ _
      rw [hout, htake]
      exact p2.filter _

/-- Witness for C6 at the spec's concrete scenario: three notes with
velocities 0.9, 0.2, 0.7 and density 2/3 keep the two loudest notes in
time order. -/
theorem c6_density_filter_amended_witness :
    ([⟨0, "both", 9/10⟩, ⟨1, "right", 1/5⟩, ⟨2, "left", 7/10⟩] : List Note) ≠ [] ∧
    (0:ℚ) < 2/3 ∧ (2:ℚ)/3 < 1 ∧
    (((apply_density_filter
        [⟨0, "both", 9/10⟩, ⟨1, "right", 1/5⟩, ⟨2, "left", 7/10⟩] (2/3)).length : ℤ) =
        max 1 ⌊((([⟨0, "both", 9/10⟩, ⟨1, "right", 1/5⟩, ⟨2, "left", 7/10⟩] : List Note).length : ℚ)) * (2/3)⌋ ∧
      List.Sorted timeAsc (apply_density_filter
        [⟨0, "both", 9/10⟩, ⟨1, "right", 1/5⟩, ⟨2, "left", 7/10⟩] (2/3)) ∧
      (∃ dropped : List Note,
        ([⟨0, "both", 9/10⟩, ⟨1, "right", 1/5⟩, ⟨2, "left", 7/10⟩] : List Note).Perm
          (apply_density_filter
            [⟨0, "both", 9/10⟩, ⟨1, "right", 1/5⟩, ⟨2, "left", 7/10⟩] (2/3) ++ dropped) ∧
        ∀ a ∈ apply_density_filter
            [⟨0, "both", 9/10⟩, ⟨1, "right", 1/5⟩, ⟨2, "left", 7/10⟩] (2/3),
          ∀ b ∈ dropped, b.velocity ≤ a.velocity) ∧
      (∀ v : ℚ, ∃ k, ((apply_density_filter
          [⟨0, "both", 9/10⟩, ⟨1, "right", 1/5⟩, ⟨2, "left", 7/10⟩] (2/3)).filter
            (fun n => n.velocity == v)).Perm
          ((([⟨0, "both", 9/10⟩, ⟨1, "right", 1/5⟩, ⟨2, "left", 7/10⟩] : List Note).filter
            (fun n => n.velocity == v)).take k))) :=
  ⟨by decide, by norm_num, by norm_num,
   (c6_density_filter_amended
      [⟨0, "both", 9/10⟩, ⟨1, "right", 1/5⟩, ⟨2, "left", 7/10⟩] (2/3)).2
      (by decide) (by norm_num) (by norm_num)⟩

end DrumChart

namespace DrumChart

/-! ### C3: chart metadata invariants -/

theorem classifyStep_types (cfg : DifficultyConfig) (mapping : Mapping)
    (st : GenState) (e : DrumEventIn)
    (h : ∀ n ∈ st.notes,
      n.type = mapping.kick ∨ n.type = mapping.snare ∨ n.type = mapping.hihat) :
    ∀ n ∈ (classifyStep cfg mapping st e).notes,
      n.type = mapping.kick ∨ n.type = mapping.snare ∨ n.type = mapping.hihat := by
  by_cases h1 : e.time - st.last_time < cfg.min_interval
  · simp only [classifyStep, if_pos h1]
    exact h
  · simp only [classifyStep, if_neg h1]
    split_ifs <;>
      first
        | exact h
        | (simp_all [pyTruthy]
           done)
        | (simp_all [pyTruthy]
           rintro n (hmem | hmem)
           · exact h n hmem
           · rw [hmem]
             simp)

theorem generate_chart_types (events : List DrumEventIn)
    (cfg : DifficultyConfig) (mapping : Mapping)
    (song_id difficulty : String) :
    ∀ n ∈ (generate_chart events cfg mapping song_id difficulty).notes,
      n.type = mapping.kick ∨ n.type = mapping.snare ∨ n.type = mapping.hihat := by
  have key : ∀ (evs : List DrumEventIn) (st : GenState),
      (∀ n ∈ st.notes,
        n.type = mapping.kick ∨ n.type = mapping.snare ∨ n.type = mapping.hihat) →
      ∀ n ∈ (evs.foldl (classifyStep cfg mapping) st).notes,
        n.type = mapping.kick ∨ n.type = mapping.snare ∨ n.type = mapping.hihat := by
    intro evs
    induction evs with
    | nil => exact fun st h => h
    | cons e rest ih =>
      intro st h
      exact ih _ (classifyStep_types cfg mapping st e h)
  exact key events { notes := [], last_time := -999 } (by simp)

theorem count_partition (l : List Note)
    (h : ∀ n ∈ l, n.type = "left" ∨ n.type = "right" ∨ n.type = "both") :
    (l.filter (fun n => n.type == "left")).length +
      (l.filter (fun n => n.type == "right")).length +
      (l.filter (fun n => n.type == "both")).length = l.length := by
  induction l with
  | nil => rfl
  | cons a l ih =>
    have ha := h a (List.mem_cons_self a l)
    have ih' := ih (fun n hn => h n (List.mem_cons_of_mem a hn))
    rcases ha with ha | ha | ha <;>
      simp [List.filter_cons, beq_iff_eq, ha] <;> omega

end DrumChart

namespace DrumChart

/-- C3 counterexample: with `note_density = 1/2`, the persisted chart for
two events (one kick note, one snare note) keeps `rightCount = 1` from
before the density filter although the filtered note list contains no
"right" note — the counts do not partition the persisted notes. -/
theorem c3_metadata_counterexample :
    ¬ ((generate_for_difficulty
        [⟨0, some (9/10), some 0, some 0⟩, ⟨1, some 0, some (1/2), some 0⟩]
        ⟨1/10, 1/10, 1/10, 1/10, some (1/2)⟩ ⟨"both", "right", "left"⟩
        "s" "easy").metadata.rightCount =
      ((generate_for_difficulty
        [⟨0, some (9/10), some 0, some 0⟩, ⟨1, some 0, some (1/2), some 0⟩]
        ⟨1/10, 1/10, 1/10, 1/10, some (1/2)⟩ ⟨"both", "right", "left"⟩
        "s" "easy").notes.filter (fun n => n.type == "right")).length) := by
  have hstep1 : classifyStep ⟨1/10, 1/10, 1/10, 1/10, some (1/2)⟩
      ⟨"both", "right", "left"⟩ { notes := [], last_time := -999 }
      ⟨0, some (9/10), some 0, some 0⟩ =
      { notes := [⟨0, "both", 9/10⟩], last_time := 0 } := by
    norm_num [classifyStep, pyTruthy, round3, round2, pyRound]
    decide
  have hstep2 : classifyStep ⟨1/10, 1/10, 1/10, 1/10, some (1/2)⟩
      ⟨"both", "right", "left"⟩ { notes := [⟨0, "both", 9/10⟩], last_time := 0 }
      ⟨1, some 0, some (1/2), some 0⟩ =
      { notes := [⟨0, "both", 9/10⟩, ⟨1, "right", 1/2⟩], last_time := 1 } := by
    norm_num [classifyStep, pyTruthy, round3, round2, pyRound]
    decide
  have hchart : generate_chart
      [⟨0, some (9/10), some 0, some 0⟩, ⟨1, some 0, some (1/2), some 0⟩]
      ⟨1/10, 1/10, 1/10, 1/10, some (1/2)⟩ ⟨"both", "right", "left"⟩ "s" "easy" =
      { songId := "s", difficulty := "easy"
        notes := [⟨0, "both", 9/10⟩, ⟨1, "right", 1/2⟩]
        metadata := ⟨"algorithm", 2, 0, 1, 1, 1⟩ } := by
    simp only [generate_chart]
    rw [List.foldl_cons, hstep1, List.foldl_cons, hstep2, List.foldl_nil]
    norm_num [timeDeltas, round3, pyRound]
    decide
  have hfd : apply_density_filter [⟨0, "both", 9/10⟩, ⟨1, "right", 1/2⟩] (1/2) =
      [⟨0, "both", 9/10⟩] := by
    norm_num [apply_density_filter, pyInt, List.insertionSort, List.orderedInsert,
      velDesc, timeAsc]
  simp only [generate_for_difficulty]
  rw [hchart]
  norm_num
  rw [hfd]
  decide

theorem generate_chart_noteCount (events : List DrumEventIn)
    (cfg : DifficultyConfig) (mapping : Mapping) (s d : String) :
    (generate_chart events cfg mapping s d).metadata.noteCount =
      (generate_chart events cfg mapping s d).notes.length := rfl

theorem generate_chart_leftCount (events : List DrumEventIn)
    (cfg : DifficultyConfig) (mapping : Mapping) (s d : String) :
    (generate_chart events cfg mapping s d).metadata.leftCount =
      ((generate_chart events cfg mapping s d).notes.filter
        (fun n => n.type == "left")).length := rfl

theorem generate_chart_rightCount (events : List DrumEventIn)
    (cfg : DifficultyConfig) (mapping : Mapping) (s d : String) :
    (generate_chart events cfg mapping s d).metadata.rightCount =
      ((generate_chart events cfg mapping s d).notes.filter
        (fun n => n.type == "right")).length := rfl

theorem generate_chart_bothCount (events : List DrumEventIn)
    (cfg : DifficultyConfig) (mapping : Mapping) (s d : String) :
    (generate_chart events cfg mapping s d).metadata.bothCount =
      ((generate_chart events cfg mapping s d).notes.filter
        (fun n => n.type == "both")).length := rfl

theorem generate_chart_averageInterval (events : List DrumEventIn)
    (cfg : DifficultyConfig) (mapping : Mapping) (s d : String) :
    (generate_chart events cfg mapping s d).metadata.averageInterval =
      (if 1 < (generate_chart events cfg mapping s d).notes.length then
        round3 ((timeDeltas (generate_chart events cfg mapping s d).notes).sum /
          (((generate_chart events cfg mapping s d).notes.length : ℚ) - 1))
      else 0) := rfl

theorem generate_for_difficulty_lt (events : List DrumEventIn)
    (cfg : DifficultyConfig) (mapping : Mapping) (s d : String)
    (h : cfg.note_density.getD 1 < 1) :
    generate_for_difficulty events cfg mapping s d =
      { generate_chart events cfg mapping s d with
          notes := apply_density_filter
            (generate_chart events cfg mapping s d).notes
            (cfg.note_density.getD 1)
          metadata := { (generate_chart events cfg mapping s d).metadata with
            noteCount := (apply_density_filter
              (generate_chart events cfg mapping s d).notes
              (cfg.note_density.getD 1)).length } } := by
  simp only [generate_for_difficulty]
  rw [if_pos h]

theorem generate_for_difficulty_ge (events : List DrumEventIn)
    (cfg : DifficultyConfig) (mapping : Mapping) (s d : String)
    (h : ¬ cfg.note_density.getD 1 < 1) :
    generate_for_difficulty events cfg mapping s d =
      generate_chart events cfg mapping s d := by
  simp only [generate_for_difficulty]
  rw [if_neg h]

/-- C3 amended: `noteCount` always equals the length of the persisted
note list.  When `note_density ≥ 1` (no density filtering) the counts
partition the notes exactly by type (given the mapping takes values in
left/right/both) and `averageInterval` is the millisecond-rounded mean of
consecutive-note deltas (0 for fewer than 2 notes).  When
`note_density < 1` only `noteCount` is recomputed after filtering:
`leftCount`, `rightCount`, `bothCount` and `averageInterval` retain their
pre-filter values, so they need not describe the persisted notes. -/
theorem c3_metadata_amended (events : List DrumEventIn)
    (cfg : DifficultyConfig) (mapping : Mapping)
    (song_id difficulty : String) (c : Chart)
    (hc : c = generate_for_difficulty events cfg mapping song_id difficulty)
    (hmap : (mapping.kick = "left" ∨ mapping.kick = "right" ∨ mapping.kick = "both") ∧
      (mapping.snare = "left" ∨ mapping.snare = "right" ∨ mapping.snare = "both") ∧
      (mapping.hihat = "left" ∨ mapping.hihat = "right" ∨ mapping.hihat = "both")) :
    c.metadata.noteCount = c.notes.length ∧
    (1 ≤ cfg.note_density.getD 1 →
      (c.metadata.leftCount = (c.notes.filter (fun n => n.type == "left")).length ∧
       c.metadata.rightCount = (c.notes.filter (fun n => n.type == "right")).length ∧
       c.metadata.bothCount = (c.notes.filter (fun n => n.type == "both")).length ∧
       c.metadata.leftCount + c.metadata.rightCount + c.metadata.bothCount =
         c.metadata.noteCount ∧
       c.metadata.averageInterval =
         (if 1 < c.notes.length then
           round3 ((timeDeltas c.notes).sum / ((c.notes.length : ℚ) - 1))
         else 0))) ∧
    (cfg.note_density.getD 1 < 1 →
      (c.notes = apply_density_filter
          (generate_chart events cfg mapping song_id difficulty).notes
          (cfg.note_density.getD 1) ∧
       c.metadata.leftCount = ((generate_chart events cfg mapping song_id
          difficulty).notes.filter (fun n => n.type == "left")).length ∧
       c.metadata.rightCount = ((generate_chart events cfg mapping song_id
          difficulty).notes.filter (fun n => n.type == "right")).length ∧
       c.metadata.bothCount = ((generate_chart events cfg mapping song_id
          difficulty).notes.filter (fun n => n.type == "both")).length ∧
       c.metadata.averageInterval = (generate_chart events cfg mapping song_id
          difficulty).metadata.averageInterval)) := by
  by_cases hd : cfg.note_density.getD 1 < 1
  · rw [generate_for_difficulty_lt events cfg mapping song_id difficulty hd] at hc
    subst hc
    refine ⟨rfl, fun hge => absurd hd (not_lt.mpr hge), fun _ => ?_⟩
    exact ⟨rfl, generate_chart_leftCount events cfg mapping song_id difficulty,
      generate_chart_rightCount events cfg mapping song_id difficulty,
      generate_chart_bothCount events cfg mapping song_id difficulty, rfl⟩
  · rw [generate_for_difficulty_ge events cfg mapping song_id difficulty hd] at hc
    subst hc
    have htypes := generate_chart_types events cfg mapping song_id difficulty
    refine ⟨generate_chart_noteCount events cfg mapping song_id difficulty,
      fun _ => ?_, fun hlt => absurd hlt hd⟩
    refine ⟨generate_chart_leftCount events cfg mapping song_id difficulty,
      generate_chart_rightCount events cfg mapping song_id difficulty,
      generate_chart_bothCount events cfg mapping song_id difficulty, ?_,
      generate_chart_averageInterval events cfg mapping song_id difficulty⟩
    rw [generate_chart_leftCount events cfg mapping song_id difficulty,
      generate_chart_rightCount events cfg mapping song_id difficulty,
      generate_chart_bothCount events cfg mapping song_id difficulty,
      generate_chart_noteCount events cfg mapping song_id difficulty]
    refine count_partition _ ?_
    intro n hn
    rcases htypes n hn with ht | ht | ht
    · rcases hmap.1 with hm | hm | hm
      · exact Or.inl (ht.trans hm)
      · exact Or.inr (Or.inl (ht.trans hm))
      · exact Or.inr (Or.inr (ht.trans hm))
    · rcases hmap.2.1 with hm | hm | hm
      · exact Or.inl (ht.trans hm)
      · exact Or.inr (Or.inl (ht.trans hm))
      · exact Or.inr (Or.inr (ht.trans hm))
    · rcases hmap.2.2 with hm | hm | hm
      · exact Or.inl (ht.trans hm)
      · exact Or.inr (Or.inl (ht.trans hm))
      · exact Or.inr (Or.inr (ht.trans hm))

/-- Witness for C3 at a concrete input with no density filtering. -/
theorem c3_metadata_amended_witness :
    ((generate_for_difficulty
        [⟨0, some (9/10), some 0, some 0⟩, ⟨1, some 0, some (1/2), some 0⟩]
        ⟨1/10, 1/10, 1/10, 1/10, none⟩ ⟨"both", "right", "left"⟩
        "s" "easy").metadata.noteCount =
      (generate_for_difficulty
        [⟨0, some (9/10), some 0, some 0⟩, ⟨1, some 0, some (1/2), some 0⟩]
        ⟨1/10, 1/10, 1/10, 1/10, none⟩ ⟨"both", "right", "left"⟩
        "s" "easy").notes.length) ∧
    ((generate_for_difficulty
        [⟨0, some (9/10), some 0, some 0⟩, ⟨1, some 0, some (1/2), some 0⟩]
        ⟨1/10, 1/10, 1/10, 1/10, none⟩ ⟨"both", "right", "left"⟩
        "s" "easy").metadata.leftCount +
      (generate_for_difficulty
        [⟨0, some (9/10), some 0, some 0⟩, ⟨1, some 0, some (1/2), some 0⟩]
        ⟨1/10, 1/10, 1/10, 1/10, none⟩ ⟨"both", "right", "left"⟩
        "s" "easy").metadata.rightCount +
      (generate_for_difficulty
        [⟨0, some (9/10), some 0, some 0⟩, ⟨1, some 0, some (1/2), some 0⟩]
        ⟨1/10, 1/10, 1/10, 1/10, none⟩ ⟨"both", "right", "left"⟩
        "s" "easy").metadata.bothCount =
      (generate_for_difficulty
        [⟨0, some (9/10), some 0, some 0⟩, ⟨1, some 0, some (1/2), some 0⟩]
        ⟨1/10, 1/10, 1/10, 1/10, none⟩ ⟨"both", "right", "left"⟩
        "s" "easy").metadata.noteCount) := by
  have h := c3_metadata_amended
    [⟨0, some (9/10), some 0, some 0⟩, ⟨1, some 0, some (1/2), some 0⟩]
    ⟨1/10, 1/10, 1/10, 1/10, none⟩ ⟨"both", "right", "left"⟩ "s" "easy" _ rfl
    ⟨Or.inr (Or.inr rfl), Or.inr (Or.inl rfl), Or.inl rfl⟩
  have h2 := h.2.1 (by norm_num)
  exact ⟨h.1, h2.2.2.2.1⟩

end DrumChart
